import Mathlib

/-!
# Verification of the MatrixPortalS3 IR decoder and mode controller

Shallow embedding of the IR reception state machine
(`src/src/ir_manager.cpp`), the default button table
(`src/include/config.h`) and the mode-switching logic of the main loop
(`src/src/main.cpp`), together with theorems settling the specified
properties.

Machine integers are modelled as `Nat`; `unsigned long` (32-bit on the
target) subtraction is modelled by `usub32`, subtraction modulo `2^32`.
-/

namespace MatrixPortal

/-- `IRState` enum from `include/ir_manager.h`. -/
inductive IRState where
  | IDLE
  | START_LOW
  | START_HIGH
  | DATA_LOW
  | DATA_HIGH
  | REPEAT_HIGH
  | REPEAT_GAP
  | DECODING
  | ERROR
  deriving DecidableEq, Repr

/-- `IRManager::IRReceiveMode` enum from `include/ir_manager.h`. -/
inductive IRReceiveMode where
  | NEC_NON_BLOCKING
  | YAHBOOM_BLOCKING
  deriving DecidableEq, Repr

/-- The mutable state of `IRManager` relevant to decoding, from
`include/ir_manager.h`, plus the function-static `lastPinState_static`
of `IRManager::updateReadNonBlocking`.  Pin levels: `true` = HIGH,
`false` = LOW. -/
structure IRManagerState where
  currentReceiveMode : IRReceiveMode
  currentState : IRState
  lastEdgeTime_us : Nat
  pulseStartTime_us : Nat
  rawData : Nat
  bitCount : Nat
  isRepeat : Bool
  lastCommand : Nat
  lastReceiveTime : Nat
  newCommandAvailable : Bool
  lastPinState : Bool
  deriving DecidableEq, Repr

/-! Timing constants from `include/ir_manager.h`. -/

def COMMAND_TIMEOUT : Nat := 200
def NEC_START_LOW_MIN : Nat := 8500
def NEC_START_LOW_MAX : Nat := 9500
def NEC_START_HIGH_MIN : Nat := 4000
def NEC_START_HIGH_MAX : Nat := 5000
def NEC_DATA_LOW_MIN : Nat := 400
def NEC_DATA_LOW_MAX : Nat := 700
def NEC_BIT_HIGH_SHORT_MIN : Nat := 400
def NEC_BIT_HIGH_SHORT_MAX : Nat := 700
def NEC_BIT_HIGH_LONG_MIN : Nat := 1500
def NEC_BIT_HIGH_LONG_MAX : Nat := 1800
def NEC_REPEAT_HIGH_MIN : Nat := 2000
def NEC_REPEAT_HIGH_MAX : Nat := 2500
def NEC_REPEAT_GAP_MIN : Nat := 100000
def STATE_TIMEOUT_US : Nat := 50000

/-- 32-bit unsigned subtraction `a - b` (C `unsigned long` arithmetic on
the ESP32 target). -/
def usub32 (a b : Nat) : Nat :=
  (a % 4294967296 + (4294967296 - b % 4294967296)) % 4294967296

/-- One call of `IRManager::updateReadNonBlocking` (`src/ir_manager.cpp`),
given the current `micros()` value, the current `millis()` value and the
pin level read by `digitalRead(irPin)`.  In `YAHBOOM_BLOCKING` mode the
function does nothing. -/
def updateReadNonBlocking (s : IRManagerState) (currentTime_us currentTime_ms : Nat)
    (currentPinState : Bool) : IRManagerState :=
  if s.currentReceiveMode = IRReceiveMode.NEC_NON_BLOCKING then
    -- state timeout: hard reset when no edge for longer than STATE_TIMEOUT_US
    let s1 :=
      if s.currentState ≠ IRState.IDLE ∧
          usub32 currentTime_us s.lastEdgeTime_us > STATE_TIMEOUT_US then
        { s with currentState := IRState.IDLE, rawData := 0, bitCount := 0,
                 isRepeat := false, lastPinState := true }
      else s
    -- edge processing: runs only when the sampled level differs from the last one
    let s2 :=
      if currentPinState ≠ s1.lastPinState then
        let pulseDuration_us := usub32 currentTime_us s1.pulseStartTime_us
        let t := { s1 with pulseStartTime_us := currentTime_us,
                           lastEdgeTime_us := currentTime_us,
                           lastPinState := currentPinState }
        match t.currentState with
        | IRState.IDLE =>
            if currentPinState = false then { t with currentState := IRState.START_LOW } else t
        | IRState.START_LOW =>
            if currentPinState = true then
              if NEC_START_LOW_MIN ≤ pulseDuration_us ∧ pulseDuration_us ≤ NEC_START_LOW_MAX then
                { t with currentState := IRState.START_HIGH }
              else
                { t with currentState := IRState.ERROR }
            else t
        | IRState.START_HIGH =>
            if currentPinState = false then
              if NEC_START_HIGH_MIN ≤ pulseDuration_us ∧ pulseDuration_us ≤ NEC_START_HIGH_MAX then
                { t with currentState := IRState.DATA_LOW, rawData := 0, bitCount := 0,
                         isRepeat := false }
              else if NEC_REPEAT_HIGH_MIN ≤ pulseDuration_us ∧
                  pulseDuration_us ≤ NEC_REPEAT_HIGH_MAX then
                { t with currentState := IRState.REPEAT_GAP, isRepeat := true }
              else
                { t with currentState := IRState.ERROR }
            else t
        | IRState.DATA_LOW =>
            if currentPinState = true then
              if NEC_DATA_LOW_MIN ≤ pulseDuration_us ∧ pulseDuration_us ≤ NEC_DATA_LOW_MAX then
                { t with currentState := IRState.DATA_HIGH }
              else
                { t with currentState := IRState.ERROR }
            else t
        | IRState.DATA_HIGH =>
            if currentPinState = false then
              if NEC_BIT_HIGH_SHORT_MIN ≤ pulseDuration_us ∧
                  pulseDuration_us ≤ NEC_BIT_HIGH_SHORT_MAX then
                -- rawData >>= 1 (bit 31 of the 32-bit register becomes 0)
                let t := { t with rawData := t.rawData / 2, bitCount := t.bitCount + 1 }
                if t.bitCount = 32 then { t with currentState := IRState.DECODING }
                else { t with currentState := IRState.DATA_LOW }
              else if NEC_BIT_HIGH_LONG_MIN ≤ pulseDuration_us ∧
                  pulseDuration_us ≤ NEC_BIT_HIGH_LONG_MAX then
                -- rawData >>= 1; rawData |= 0x80000000 (bit 31 is clear after the shift)
                let t := { t with rawData := t.rawData / 2 + 2147483648,
                                  bitCount := t.bitCount + 1 }
                if t.bitCount = 32 then { t with currentState := IRState.DECODING }
                else { t with currentState := IRState.DATA_LOW }
              else
                { t with currentState := IRState.ERROR }
            else t
        | IRState.REPEAT_GAP =>
            if currentPinState = false then { t with currentState := IRState.ERROR } else t
        | IRState.DECODING =>
            let address := t.rawData % 256
            let invAddress := t.rawData / 256 % 256
            let command := t.rawData / 65536 % 256
            let invCommand := t.rawData / 16777216 % 256
            let t :=
              if address + invAddress = 255 ∧ command + invCommand = 255 then
                if command ≠ t.lastCommand ∨
                    usub32 currentTime_ms t.lastReceiveTime > COMMAND_TIMEOUT then
                  { t with lastCommand := command, lastReceiveTime := currentTime_ms,
                           newCommandAvailable := true }
                else t
              else t
            { t with currentState := IRState.IDLE, rawData := 0, bitCount := 0,
                     isRepeat := false }
        | IRState.ERROR =>
            { t with currentState := IRState.IDLE, rawData := 0, bitCount := 0,
                     isRepeat := false }
        | IRState.REPEAT_HIGH =>
            -- default case of the switch: should not happen
            { t with currentState := IRState.IDLE }
      else s1
    -- REPEAT_GAP timeout check at the bottom of the function
    if s2.currentState = IRState.REPEAT_GAP ∧
        usub32 currentTime_us s2.pulseStartTime_us > NEC_REPEAT_GAP_MIN then
      { s2 with currentState := IRState.IDLE, rawData := 0, bitCount := 0,
                isRepeat := false }
    else s2
  else s

/-- `IRManager::getLastCommand`: returns only the command byte. -/
def getLastCommand (s : IRManagerState) : Nat :=
  s.lastCommand % 256

/-- `IRManager::hasNewCommand`. -/
def hasNewCommand (s : IRManagerState) : Bool :=
  s.newCommandAvailable

/-- Feed a list of `(micros, millis, pinLevel)` samples, one poll call
each, through `updateReadNonBlocking`. -/
def runPolls (s : IRManagerState) : List (Nat × Nat × Bool) → IRManagerState
  | [] => s
  | (t_us, t_ms, pin) :: rest => runPolls (updateReadNonBlocking s t_us t_ms pin) rest

/-- The 32-bit NEC data word for address `A`, command `C` with correct
complement bytes, in transmission order (LSB first): byte 0 = `A`,
byte 1 = `~A`, byte 2 = `C`, byte 3 = `~C`. -/
def necWord (A C : Nat) : Nat :=
  A + 256 * (255 - A) + 65536 * C + 16777216 * (255 - C)

/-- Edge samples for the data bits of a frame, starting at bit `i` with
`k` bits remaining, at absolute time `t` (the falling edge that opened
the current data-low burst).  `dl j` is the low-burst duration of bit
`j` and `dh j` its high-gap duration.  `millis` values are irrelevant
for these samples and set to 0. -/
def necBitEdges (dl dh : Nat → Nat) : Nat → Nat → Nat → List (Nat × Nat × Bool)
  | _, 0, _ => []
  | i, k + 1, t =>
      (t + dl i, 0, true) :: (t + dl i + dh i, 0, false) ::
        necBitEdges dl dh (i + 1) k (t + dl i + dh i)

/-- Absolute time of the falling edge that ends the last of the `k`
bits starting at bit `i` at time `t`. -/
def necBitsEnd (dl dh : Nat → Nat) : Nat → Nat → Nat → Nat
  | _, 0, t => t
  | i, k + 1, t => necBitsEnd dl dh (i + 1) k (t + dl i + dh i)

/-- The complete edge sample sequence of a NEC frame: initial falling
edge at `t0`, start burst of duration `dSL`, start gap of duration
`dSH`, the 32 data bits, and a final rising edge `dStop` after the last
bit (the end of the stop burst) whose poll carries `millis()` value
`Tms` and triggers the DECODING step. -/
def necFrameEdges (t0 dSL dSH : Nat) (dl dh : Nat → Nat) (dStop Tms : Nat) :
    List (Nat × Nat × Bool) :=
  (t0, 0, false) :: (t0 + dSL, 0, true) :: (t0 + dSL + dSH, 0, false) ::
    (necBitEdges dl dh 0 32 (t0 + dSL + dSH) ++
      [(necBitsEnd dl dh 0 32 (t0 + dSL + dSH) + dStop, Tms, true)])

/-- Canonical high-gap durations for the word encoding address `A`,
command `C`: 1690 µs for a 1 bit, 560 µs for a 0 bit. -/
def necStdH (A C : Nat) : Nat → Nat :=
  fun i => if necWord A C / 2 ^ i % 2 = 1 then 1690 else 560

/-- The `IRManager` decoder state right after `IRManager::setup` in
`NEC_NON_BLOCKING` mode (times taken at 0). -/
def freshState : IRManagerState :=
  { currentReceiveMode := IRReceiveMode.NEC_NON_BLOCKING
    currentState := IRState.IDLE
    lastEdgeTime_us := 0
    pulseStartTime_us := 0
    rawData := 0
    bitCount := 0
    isRepeat := false
    lastCommand := 0
    lastReceiveTime := 0
    newCommandAvailable := false
    lastPinState := true }

/-- `IR_CODE_MAP` from `include/config.h`: command byte paired with the
button name. -/
def IR_CODE_MAP : List (Nat × String) :=
  [(0x00, "POWER"), (0x01, "UP"), (0x02, "LIGHT"), (0x04, "LEFT"),
   (0x05, "SOUND"), (0x06, "RIGHT"), (0x08, "UNDO"), (0x09, "DOWN"),
   (0x0a, "REDO"), (0x0c, "PLUS"), (0x0d, "0"), (0x0e, "MINUS"),
   (0x10, "1"), (0x11, "2"), (0x12, "3"), (0x14, "4"), (0x15, "5"),
   (0x16, "6"), (0x18, "7"), (0x19, "8"), (0x1a, "9")]

/-- `IRManager::findButtonIndexByCode` over the default mappings
(`buttonMappings` as initialized from `IR_CODE_MAP` in `setup`): compares
the command byte of `code` against each entry, returning the first
matching index (`none` models the C `-1`). -/
def findButtonIndexByCode (code : Nat) : Option Nat :=
  IR_CODE_MAP.findIdx? (fun m => m.1 = code % 256)

/-- Name of the default button mapped to `code`, via
`findButtonIndexByCode` and `buttonMappings[i].name`. -/
def buttonNameByCode (code : Nat) : Option String :=
  (findButtonIndexByCode code).bind (fun i => (IR_CODE_MAP.get? i).map Prod.snd)

/-! ## Arithmetic helpers -/

theorem usub32_eq (a b : Nat) (h1 : b ≤ a) (h2 : a - b < 4294967296) :
    usub32 a b = a - b := by
  unfold usub32
  omega

theorem word_bytes (a b c d : Nat) (ha : a < 256) (hb : b < 256) (hc : c < 256)
    (hd : d < 256) :
    (a + 256 * b + 65536 * c + 16777216 * d) % 256 = a ∧
    (a + 256 * b + 65536 * c + 16777216 * d) / 256 % 256 = b ∧
    (a + 256 * b + 65536 * c + 16777216 * d) / 65536 % 256 = c ∧
    (a + 256 * b + 65536 * c + 16777216 * d) / 16777216 % 256 = d := by
  omega

theorem necWord_bytes (A C : Nat) (hA : A < 256) (hC : C < 256) :
    necWord A C % 256 = A ∧ necWord A C / 256 % 256 = 255 - A ∧
    necWord A C / 65536 % 256 = C ∧ necWord A C / 16777216 % 256 = 255 - C := by
  have h := word_bytes A (255 - A) C (255 - C) hA (by omega) hC (by omega)
  unfold necWord
  exact h

theorem necWord_lt (A C : Nat) (hA : A < 256) (hC : C < 256) :
    necWord A C < 4294967296 := by
  unfold necWord
  omega

/-- One data-bit accumulation step of the 32-bit shift register:
`rawData >>= 1; if bit then rawData |= 0x80000000`. -/
theorem bit_acc (n i : Nat) (h : i < 32) :
    n % 2 ^ i * 2 ^ (32 - i) / 2 + n / 2 ^ i % 2 * 2147483648
      = n % 2 ^ (i + 1) * 2 ^ (32 - (i + 1)) := by
  have h1 : 32 - i = (32 - (i + 1)) + 1 := by omega
  have h2 : (2 : Nat) ^ i * 2 ^ (32 - (i + 1)) = 2147483648 := by
    rw [← pow_add]
    have h3 : i + (32 - (i + 1)) = 31 := by omega
    rw [h3]
    norm_num
  rw [h1, pow_succ, ← Nat.mul_assoc, Nat.mul_div_cancel _ (by norm_num : (0:Nat) < 2),
      Nat.mod_pow_succ, Nat.add_mul, Nat.mul_assoc, Nat.mul_left_comm, h2]

/-! ## Single-poll transition lemmas for the NEC state machine -/

theorem step_idle_fall (s : IRManagerState) (t ms : Nat)
    (hm : s.currentReceiveMode = IRReceiveMode.NEC_NON_BLOCKING)
    (hs : s.currentState = IRState.IDLE)
    (hp : s.lastPinState = true) :
    updateReadNonBlocking s t ms false =
      { s with currentState := IRState.START_LOW, pulseStartTime_us := t,
               lastEdgeTime_us := t, lastPinState := false } := by
  simp [updateReadNonBlocking, hm, hs, hp]

theorem step_start_low (s : IRManagerState) (t0 d ms : Nat)
    (hm : s.currentReceiveMode = IRReceiveMode.NEC_NON_BLOCKING)
    (hs : s.currentState = IRState.START_LOW)
    (hp : s.lastPinState = false)
    (hps : s.pulseStartTime_us = t0) (hle : s.lastEdgeTime_us = t0)
    (hd1 : 8500 ≤ d) (hd2 : d ≤ 9500) :
    updateReadNonBlocking s (t0 + d) ms true =
      { s with currentState := IRState.START_HIGH, pulseStartTime_us := t0 + d,
               lastEdgeTime_us := t0 + d, lastPinState := true } := by
  have hu : usub32 (t0 + d) t0 = d := by rw [usub32_eq] <;> omega
  have h50 : ¬ (50000 < d) := by omega
  simp [updateReadNonBlocking, hm, hs, hp, hps, hle, hu, h50, hd1, hd2,
        STATE_TIMEOUT_US, NEC_START_LOW_MIN, NEC_START_LOW_MAX]

theorem step_start_high_data (s : IRManagerState) (t0 d ms : Nat)
    (hm : s.currentReceiveMode = IRReceiveMode.NEC_NON_BLOCKING)
    (hs : s.currentState = IRState.START_HIGH)
    (hp : s.lastPinState = true)
    (hps : s.pulseStartTime_us = t0) (hle : s.lastEdgeTime_us = t0)
    (hd1 : 4000 ≤ d) (hd2 : d ≤ 5000) :
    updateReadNonBlocking s (t0 + d) ms false =
      { s with currentState := IRState.DATA_LOW, rawData := 0, bitCount := 0,
               isRepeat := false, pulseStartTime_us := t0 + d,
               lastEdgeTime_us := t0 + d, lastPinState := false } := by
  have hu : usub32 (t0 + d) t0 = d := by rw [usub32_eq] <;> omega
  have h50 : ¬ (50000 < d) := by omega
  simp [updateReadNonBlocking, hm, hs, hp, hps, hle, hu, h50, hd1, hd2,
        STATE_TIMEOUT_US, NEC_START_HIGH_MIN, NEC_START_HIGH_MAX]

theorem step_data_low (s : IRManagerState) (t0 d ms : Nat)
    (hm : s.currentReceiveMode = IRReceiveMode.NEC_NON_BLOCKING)
    (hs : s.currentState = IRState.DATA_LOW)
    (hp : s.lastPinState = false)
    (hps : s.pulseStartTime_us = t0) (hle : s.lastEdgeTime_us = t0)
    (hd1 : 400 ≤ d) (hd2 : d ≤ 700) :
    updateReadNonBlocking s (t0 + d) ms true =
      { s with currentState := IRState.DATA_HIGH, pulseStartTime_us := t0 + d,
               lastEdgeTime_us := t0 + d, lastPinState := true } := by
  have hu : usub32 (t0 + d) t0 = d := by rw [usub32_eq] <;> omega
  have h50 : ¬ (50000 < d) := by omega
  simp [updateReadNonBlocking, hm, hs, hp, hps, hle, hu, h50, hd1, hd2,
        STATE_TIMEOUT_US, NEC_DATA_LOW_MIN, NEC_DATA_LOW_MAX]

theorem step_data_high_short (s : IRManagerState) (t0 d ms : Nat)
    (hm : s.currentReceiveMode = IRReceiveMode.NEC_NON_BLOCKING)
    (hs : s.currentState = IRState.DATA_HIGH)
    (hp : s.lastPinState = true)
    (hps : s.pulseStartTime_us = t0) (hle : s.lastEdgeTime_us = t0)
    (hd1 : 400 ≤ d) (hd2 : d ≤ 700) :
    updateReadNonBlocking s (t0 + d) ms false =
      { s with currentState := if s.bitCount + 1 = 32 then IRState.DECODING
                               else IRState.DATA_LOW,
               rawData := s.rawData / 2, bitCount := s.bitCount + 1,
               pulseStartTime_us := t0 + d, lastEdgeTime_us := t0 + d,
               lastPinState := false } := by
  have hu : usub32 (t0 + d) t0 = d := by rw [usub32_eq] <;> omega
  have h50 : ¬ (50000 < d) := by omega
  by_cases hb : s.bitCount + 1 = 32 <;>
    simp [updateReadNonBlocking, hm, hs, hp, hps, hle, hu, h50, hd1, hd2, hb,
          STATE_TIMEOUT_US, NEC_BIT_HIGH_SHORT_MIN, NEC_BIT_HIGH_SHORT_MAX]

theorem step_data_high_long (s : IRManagerState) (t0 d ms : Nat)
    (hm : s.currentReceiveMode = IRReceiveMode.NEC_NON_BLOCKING)
    (hs : s.currentState = IRState.DATA_HIGH)
    (hp : s.lastPinState = true)
    (hps : s.pulseStartTime_us = t0) (hle : s.lastEdgeTime_us = t0)
    (hd1 : 1500 ≤ d) (hd2 : d ≤ 1800) :
    updateReadNonBlocking s (t0 + d) ms false =
      { s with currentState := if s.bitCount + 1 = 32 then IRState.DECODING
                               else IRState.DATA_LOW,
               rawData := s.rawData / 2 + 2147483648, bitCount := s.bitCount + 1,
               pulseStartTime_us := t0 + d, lastEdgeTime_us := t0 + d,
               lastPinState := false } := by
  have hu : usub32 (t0 + d) t0 = d := by rw [usub32_eq] <;> omega
  have h50 : ¬ (50000 < d) := by omega
  have hshort : ¬ (400 ≤ d ∧ d ≤ 700) := by omega
  by_cases hb : s.bitCount + 1 = 32 <;>
    simp [updateReadNonBlocking, hm, hs, hp, hps, hle, hu, h50, hd1, hd2, hb, hshort,
          STATE_TIMEOUT_US, NEC_BIT_HIGH_SHORT_MIN, NEC_BIT_HIGH_SHORT_MAX,
          NEC_BIT_HIGH_LONG_MIN, NEC_BIT_HIGH_LONG_MAX]

theorem step_decode_accept (s : IRManagerState) (t0 d ms : Nat)
    (hm : s.currentReceiveMode = IRReceiveMode.NEC_NON_BLOCKING)
    (hs : s.currentState = IRState.DECODING)
    (hp : s.lastPinState = false)
    (hle : s.lastEdgeTime_us = t0)
    (hd : d ≤ 50000)
    (hck1 : s.rawData % 256 + s.rawData / 256 % 256 = 255)
    (hck2 : s.rawData / 65536 % 256 + s.rawData / 16777216 % 256 = 255)
    (hdb : s.rawData / 65536 % 256 ≠ s.lastCommand ∨
           usub32 ms s.lastReceiveTime > 200) :
    updateReadNonBlocking s (t0 + d) ms true =
      { s with currentState := IRState.IDLE, rawData := 0, bitCount := 0,
               isRepeat := false, lastCommand := s.rawData / 65536 % 256,
               lastReceiveTime := ms, newCommandAvailable := true,
               pulseStartTime_us := t0 + d, lastEdgeTime_us := t0 + d,
               lastPinState := true } := by
  have hu : usub32 (t0 + d) t0 = d := by rw [usub32_eq] <;> omega
  have h50 : ¬ (50000 < d) := by omega
  rcases hdb with h | h
  · simp [updateReadNonBlocking, hm, hs, hp, hle, hu, h50, hck1, hck2, h,
          STATE_TIMEOUT_US, COMMAND_TIMEOUT]
  · simp [updateReadNonBlocking, hm, hs, hp, hle, hu, h50, hck1, hck2, h,
          STATE_TIMEOUT_US, COMMAND_TIMEOUT]

theorem runPolls_nil (s : IRManagerState) : runPolls s [] = s := rfl

theorem runPolls_cons (s : IRManagerState) (t_us t_ms : Nat) (pin : Bool)
    (l : List (Nat × Nat × Bool)) :
    runPolls s ((t_us, t_ms, pin) :: l) = runPolls (updateReadNonBlocking s t_us t_ms pin) l :=
  rfl

theorem runPolls_append (s : IRManagerState) (l1 l2 : List (Nat × Nat × Bool)) :
    runPolls s (l1 ++ l2) = runPolls (runPolls s l1) l2 := by
  induction l1 generalizing s with
  | nil => rfl
  | cons e rest ih =>
      obtain ⟨t_us, t_ms, pin⟩ := e
      simp [runPolls, ih]

/-- Feeding the edge samples of the 32 data bits of word `n` through the
state machine accumulates exactly `n % 2^32` in `rawData` and ends in
`DECODING`. -/

theorem runPolls_bits (dl dh : Nat → Nat) (n : Nat)
    (hdl : ∀ j, j < 32 → 400 ≤ dl j ∧ dl j ≤ 700)
    (hdh : ∀ j, j < 32 → if n / 2 ^ j % 2 = 1 then 1500 ≤ dh j ∧ dh j ≤ 1800
                         else 400 ≤ dh j ∧ dh j ≤ 700) :
    ∀ k i t (s : IRManagerState), i + k = 32 → 0 < k →
      s.currentReceiveMode = IRReceiveMode.NEC_NON_BLOCKING →
      s.currentState = IRState.DATA_LOW →
      s.bitCount = i →
      s.rawData = n % 2 ^ i * 2 ^ (32 - i) →
      s.lastPinState = false →
      s.pulseStartTime_us = t → s.lastEdgeTime_us = t →
      runPolls s (necBitEdges dl dh i k t) =
        { s with currentState := IRState.DECODING, bitCount := 32,
                 rawData := n % 2 ^ 32,
                 pulseStartTime_us := necBitsEnd dl dh i k t,
                 lastEdgeTime_us := necBitsEnd dl dh i k t,
                 lastPinState := false } := by
  intro k
  induction k with
  | zero => intro i t s _ hk; exact absurd hk (by omega)
  | succ k ih =>
      intro i t s hik _ hm hs hbc hrd hp hps hle
      have hi32 : i < 32 := by omega
      obtain ⟨mode, cs, le, ps, rd, bc, ir, lc, lrt, nca, lps⟩ := s
      dsimp only at hm hs hbc hrd hp hps hle ⊢
      rw [hm, hs, hbc, hrd, hp, hps, hle]
      simp only [necBitEdges, runPolls]
      rw [step_data_low _ t (dl i) 0 rfl rfl rfl rfl rfl
        (hdl i hi32).1 (hdl i hi32).2]
      dsimp only
      by_cases hb : n / 2 ^ i % 2 = 1
      · have hw := hdh i hi32
        rw [if_pos hb] at hw
        rw [step_data_high_long _ (t + dl i) (dh i) 0 rfl rfl rfl rfl rfl hw.1 hw.2]
        dsimp only
        have hacc : n % 2 ^ i * 2 ^ (32 - i) / 2 + 2147483648
            = n % 2 ^ (i + 1) * 2 ^ (32 - (i + 1)) := by
          have h := bit_acc n i hi32
          rw [hb] at h
          simpa using h
        rw [hacc]
        by_cases hi : i + 1 = 32
        · have hk0 : k = 0 := by omega
          subst hk0
          simp only [necBitEdges, runPolls, necBitsEnd, if_pos hi, hi]
          norm_num
        · have h1 : 0 < k := by omega
          rw [if_neg hi]
          rw [ih (i + 1) (t + dl i + dh i) _ (by omega) h1 rfl rfl rfl rfl rfl rfl rfl]
          simp only [necBitsEnd]
      · have hw := hdh i hi32
        rw [if_neg hb] at hw
        rw [step_data_high_short _ (t + dl i) (dh i) 0 rfl rfl rfl rfl rfl hw.1 hw.2]
        dsimp only
        have hb0 : n / 2 ^ i % 2 = 0 := by omega
        have hacc : n % 2 ^ i * 2 ^ (32 - i) / 2
            = n % 2 ^ (i + 1) * 2 ^ (32 - (i + 1)) := by
          have h := bit_acc n i hi32
          rw [hb0] at h
          simpa using h
        rw [hacc]
        by_cases hi : i + 1 = 32
        · have hk0 : k = 0 := by omega
          subst hk0
          simp only [necBitEdges, runPolls, necBitsEnd, if_pos hi, hi]
          norm_num
        · have h1 : 0 < k := by omega
          rw [if_neg hi]
          rw [ih (i + 1) (t + dl i + dh i) _ (by omega) h1 rfl rfl rfl rfl rfl rfl rfl]
          simp only [necBitsEnd]



/-- Running a complete valid NEC frame for address `A`, command `C`. -/
theorem runPolls_frame (s : IRManagerState) (A C t0 dSL dSH dStop Tms : Nat)
    (dl dh : Nat → Nat)
    (hm : s.currentReceiveMode = IRReceiveMode.NEC_NON_BLOCKING)
    (hs : s.currentState = IRState.IDLE)
    (hp : s.lastPinState = true)
    (hA : A < 256) (hC : C < 256)
    (hSL1 : 8500 ≤ dSL) (hSL2 : dSL ≤ 9500)
    (hSH1 : 4000 ≤ dSH) (hSH2 : dSH ≤ 5000)
    (hdl : ∀ j, j < 32 → 400 ≤ dl j ∧ dl j ≤ 700)
    (hdh : ∀ j, j < 32 → if necWord A C / 2 ^ j % 2 = 1 then 1500 ≤ dh j ∧ dh j ≤ 1800
                         else 400 ≤ dh j ∧ dh j ≤ 700)
    (hstop : dStop ≤ 50000)
    (hdb : C ≠ s.lastCommand ∨ usub32 Tms s.lastReceiveTime > 200) :
    runPolls s (necFrameEdges t0 dSL dSH dl dh dStop Tms) =
      { s with currentState := IRState.IDLE, rawData := 0, bitCount := 0,
               isRepeat := false, lastCommand := C, lastReceiveTime := Tms,
               newCommandAvailable := true,
               pulseStartTime_us := necBitsEnd dl dh 0 32 (t0 + dSL + dSH) + dStop,
               lastEdgeTime_us := necBitsEnd dl dh 0 32 (t0 + dSL + dSH) + dStop,
               lastPinState := true } := by
  have hby := necWord_bytes A C hA hC
  have hlt := necWord_lt A C hA hC
  obtain ⟨mode, cs, le, ps, rd, bc, ir, lc, lrt, nca, lps⟩ := s
  dsimp only at hm hs hp hdb ⊢
  rw [hm, hs, hp]
  simp only [necFrameEdges]
  rw [runPolls_cons, step_idle_fall _ t0 0 rfl rfl rfl]
  dsimp only
  rw [runPolls_cons, step_start_low _ t0 dSL 0 rfl rfl rfl rfl rfl hSL1 hSL2]
  dsimp only
  rw [runPolls_cons, step_start_high_data _ (t0 + dSL) dSH 0 rfl rfl rfl rfl rfl hSH1 hSH2]
  dsimp only
  rw [runPolls_append]
  rw [runPolls_bits dl dh (necWord A C) hdl hdh 32 0 (t0 + dSL + dSH) _
    (by norm_num) (by norm_num) rfl rfl rfl (by simp [Nat.mod_one]) rfl rfl rfl]
  dsimp only
  rw [Nat.mod_eq_of_lt (show necWord A C < 2 ^ 32 by simpa using hlt)]
  rw [runPolls_cons, step_decode_accept _ (necBitsEnd dl dh 0 32 (t0 + dSL + dSH)) dStop Tms
    rfl rfl rfl rfl hstop
    (by rw [hby.1, hby.2.1]; omega)
    (by rw [hby.2.2.1, hby.2.2.2]; omega)
    (by rw [hby.2.2.1]; exact hdb)]
  dsimp only
  rw [runPolls_nil, hby.2.2.1]



set_option maxRecDepth 20000 in
/-- C1 (amended): every valid NEC pulse-edge sequence encoding address `A`
and command `C` with correct complement bytes, fed one poll per edge into
`updateReadNonBlocking` from IDLE with no pending command and the line
previously HIGH, yields exactly one pending decoded command of value `C`
and leaves the machine in IDLE — provided the decoded command differs
from the stored `lastCommand` or arrives more than `COMMAND_TIMEOUT`
(200 ms) after `lastReceiveTime` (otherwise the debounce suppresses it).
Concretely, address 0x00 / command 0x0C decodes to 12 and the default
button table maps 12 to "PLUS". -/
theorem nec_round_trip_framing :
    (∀ (s : IRManagerState) (A C t0 dSL dSH dStop Tms : Nat) (dl dh : Nat → Nat),
      s.currentReceiveMode = IRReceiveMode.NEC_NON_BLOCKING →
      s.currentState = IRState.IDLE →
      s.newCommandAvailable = false →
      s.lastPinState = true →
      A < 256 → C < 256 →
      8500 ≤ dSL → dSL ≤ 9500 → 4000 ≤ dSH → dSH ≤ 5000 →
      (∀ j, j < 32 → 400 ≤ dl j ∧ dl j ≤ 700) →
      (∀ j, j < 32 → if necWord A C / 2 ^ j % 2 = 1 then 1500 ≤ dh j ∧ dh j ≤ 1800
                     else 400 ≤ dh j ∧ dh j ≤ 700) →
      dStop ≤ 50000 →
      (C ≠ s.lastCommand ∨ usub32 Tms s.lastReceiveTime > COMMAND_TIMEOUT) →
      (runPolls s (necFrameEdges t0 dSL dSH dl dh dStop Tms)).currentState
          = IRState.IDLE ∧
      hasNewCommand (runPolls s (necFrameEdges t0 dSL dSH dl dh dStop Tms)) = true ∧
      getLastCommand (runPolls s (necFrameEdges t0 dSL dSH dl dh dStop Tms)) = C) ∧
    getLastCommand (runPolls freshState
      (necFrameEdges 100 9000 4500 (fun _ => 560) (necStdH 0 12) 560 1000)) = 12 ∧
    buttonNameByCode 12 = some "PLUS" := by
  refine ⟨?_, by decide, by decide⟩
  intro s A C t0 dSL dSH dStop Tms dl dh hm hs hnca hp hA hC hSL1 hSL2 hSH1 hSH2
    hdl hdh hstop hdb
  rw [runPolls_frame s A C t0 dSL dSH dStop Tms dl dh hm hs hp hA hC hSL1 hSL2
    hSH1 hSH2 hdl hdh hstop hdb]
  refine ⟨rfl, rfl, ?_⟩
  simp [getLastCommand, Nat.mod_eq_of_lt hC]



set_option maxRecDepth 20000 in
/-- C1 counterexample: a fully valid NEC frame (correct complements, all
durations inside the timing windows) encoding address 0x00, command 0x00,
fed edge-by-edge into the fresh decoder (IDLE, nothing pending) with the
decode falling at `millis() = 100`, produces NO pending command: the
200 ms debounce against the initial `lastCommand = 0` suppresses it, so
the claim's unconditional "exactly one pending decoded command" fails. -/
theorem nec_round_trip_counterexample :
    freshState.currentState = IRState.IDLE ∧
    freshState.newCommandAvailable = false ∧
    (∀ j, j < 32 → if necWord 0 0 / 2 ^ j % 2 = 1
        then 1500 ≤ necStdH 0 0 j ∧ necStdH 0 0 j ≤ 1800
        else 400 ≤ necStdH 0 0 j ∧ necStdH 0 0 j ≤ 700) ∧
    hasNewCommand (runPolls freshState
      (necFrameEdges 100 9000 4500 (fun _ => 560) (necStdH 0 0) 560 100)) = false ∧
    (runPolls freshState
      (necFrameEdges 100 9000 4500 (fun _ => 560) (necStdH 0 0) 560 100)).currentState
      = IRState.IDLE := by
  refine ⟨rfl, rfl, by decide, by decide, by decide⟩

/-- C1 witness: the amended round-trip theorem applied to the concrete
frame for address 0x00, command 0x0C from the fresh decoder state. -/
theorem nec_round_trip_framing_witness :
    (runPolls freshState
      (necFrameEdges 100 9000 4500 (fun _ => 560) (necStdH 0 12) 560 1000)).currentState
        = IRState.IDLE ∧
    hasNewCommand (runPolls freshState
      (necFrameEdges 100 9000 4500 (fun _ => 560) (necStdH 0 12) 560 1000)) = true ∧
    getLastCommand (runPolls freshState
      (necFrameEdges 100 9000 4500 (fun _ => 560) (necStdH 0 12) 560 1000)) = 12 :=
  nec_round_trip_framing.1 freshState 0 12 100 9000 4500 560 1000 (fun _ => 560)
    (necStdH 0 12) rfl rfl rfl rfl (by norm_num) (by norm_num) (by norm_num)
    (by norm_num) (by norm_num) (by norm_num) (by decide) (by decide) (by norm_num)
    (Or.inl (by decide))

/-- C2: on the decoding edge (a poll with a pin-level change within the
stall window) of a 32-bit frame whose address or command complement
check fails, no new command becomes pending (`newCommandAvailable` is
unchanged) and the machine returns to IDLE with `rawData` and `bitCount`
zeroed. -/
theorem nec_checksum_rejection (s : IRManagerState) (t_us t_ms : Nat) (pin : Bool)
    (hm : s.currentReceiveMode = IRReceiveMode.NEC_NON_BLOCKING)
    (hs : s.currentState = IRState.DECODING)
    (hedge : pin ≠ s.lastPinState)
    (htime : usub32 t_us s.lastEdgeTime_us ≤ STATE_TIMEOUT_US)
    (hbad : ¬ (s.rawData % 256 + s.rawData / 256 % 256 = 255 ∧
               s.rawData / 65536 % 256 + s.rawData / 16777216 % 256 = 255)) :
    (updateReadNonBlocking s t_us t_ms pin).newCommandAvailable = s.newCommandAvailable ∧
    (updateReadNonBlocking s t_us t_ms pin).currentState = IRState.IDLE ∧
    (updateReadNonBlocking s t_us t_ms pin).rawData = 0 ∧
    (updateReadNonBlocking s t_us t_ms pin).bitCount = 0 := by
  have h50 : ¬ (STATE_TIMEOUT_US < usub32 t_us s.lastEdgeTime_us) := Nat.not_lt.mpr htime
  simp [updateReadNonBlocking, hm, hs, hedge, h50, hbad]

/-- Concrete decoder state in `DECODING` holding a frame whose checksum
fails (`rawData = 1`: address 0x01, inverse-address 0x00). -/
def badFrameState : IRManagerState :=
  { freshState with currentState := IRState.DECODING, rawData := 1, lastPinState := false }

/-- C2 witness: the checksum-rejection theorem applied to a concrete
DECODING state holding `rawData = 1` (address 0x01, inverse 0x00). -/
theorem nec_checksum_rejection_witness :
    (updateReadNonBlocking badFrameState 100 0 true).newCommandAvailable = false ∧
    (updateReadNonBlocking badFrameState 100 0 true).currentState = IRState.IDLE := by
  have h := nec_checksum_rejection badFrameState 100 0 true
    rfl rfl (by decide) (by decide) (by decide)
  exact ⟨h.1, h.2.1⟩

/-- Concrete decoder state stalled mid-frame in `DATA_LOW` with the line
(and the last sampled level) LOW. -/
def stalledLowState : IRManagerState :=
  { freshState with currentState := IRState.DATA_LOW, lastPinState := false }

/-- C3 counterexample: stalled mid-frame in DATA_LOW with the line (and
the last sampled level) LOW, a poll 60000 µs after the last edge — with
no pin-level change — does NOT end in IDLE: the timeout reset forces
`lastPinState_static` HIGH, so the same call sees a synthetic falling
edge and moves to START_LOW. -/
theorem nec_stall_counterexample :
    stalledLowState.currentState ≠ IRState.IDLE ∧
    usub32 60000 stalledLowState.lastEdgeTime_us > STATE_TIMEOUT_US ∧
    false = stalledLowState.lastPinState ∧
    (updateReadNonBlocking stalledLowState 60000 60 false).currentState
      = IRState.START_LOW := by
  refine ⟨by decide, by decide, by decide, by decide⟩

/-- C3 (amended): in any non-IDLE state, a poll more than
`STATE_TIMEOUT_US` (50000 µs) after the last recorded edge with the pin
reading HIGH resets the machine to IDLE and clears the raw bit buffer,
bit counter and repeat flag, even with no pin-level change. -/
theorem nec_stall_recovery (s : IRManagerState) (t_us t_ms : Nat)
    (hm : s.currentReceiveMode = IRReceiveMode.NEC_NON_BLOCKING)
    (hs : s.currentState ≠ IRState.IDLE)
    (ht : usub32 t_us s.lastEdgeTime_us > STATE_TIMEOUT_US) :
    (updateReadNonBlocking s t_us t_ms true).currentState = IRState.IDLE ∧
    (updateReadNonBlocking s t_us t_ms true).rawData = 0 ∧
    (updateReadNonBlocking s t_us t_ms true).bitCount = 0 ∧
    (updateReadNonBlocking s t_us t_ms true).isRepeat = false := by
  simp [updateReadNonBlocking, hm, hs, ht]

/-- Concrete decoder state stalled in `DATA_HIGH` with the line HIGH. -/
def stalledHighState : IRManagerState :=
  { freshState with currentState := IRState.DATA_HIGH, lastPinState := true }

/-- C3 witness: the stall-recovery theorem applied to a concrete state
stalled in DATA_HIGH, polled at 60000 µs with the line HIGH. -/
theorem nec_stall_recovery_witness :
    (updateReadNonBlocking stalledHighState 60000 60 true).currentState = IRState.IDLE ∧
    (updateReadNonBlocking stalledHighState 60000 60 true).rawData = 0 ∧
    (updateReadNonBlocking stalledHighState 60000 60 true).bitCount = 0 ∧
    (updateReadNonBlocking stalledHighState 60000 60 true).isRepeat = false :=
  nec_stall_recovery stalledHighState 60000 60 rfl (by decide) (by decide)

/-- Concrete decoder state parked in `REPEAT_GAP` after a repeat header
(previous command 5 already consumed, nothing pending). -/
def repeatGapState : IRManagerState :=
  { freshState with currentState := IRState.REPEAT_GAP, isRepeat := true,
                    lastCommand := 5, lastPinState := false }

/-- C4 counterexample: in REPEAT_GAP with the repeat-gap window elapsed
(150000 µs > `NEC_REPEAT_GAP_MIN`) and no further edge, the machine does
return to IDLE but `hasNewCommand` is false afterwards: no repeat
DecodedCommand is published, refuting the claim's "publishes a
DecodedCommand flagged as repeat". -/
theorem nec_repeat_counterexample :
    repeatGapState.currentState = IRState.REPEAT_GAP ∧
    usub32 150000 repeatGapState.pulseStartTime_us > NEC_REPEAT_GAP_MIN ∧
    (updateReadNonBlocking repeatGapState 150000 150 true).currentState
      = IRState.IDLE ∧
    hasNewCommand (updateReadNonBlocking repeatGapState 150000 150 true) = false := by
  refine ⟨rfl, by decide, by decide, by decide⟩

/-- C4 (amended): in REPEAT_GAP, once the repeat-gap timeout elapses
with no further edge (line HIGH), the machine transitions to IDLE with
`rawData`, `bitCount` and `isRepeat` cleared — via the 50 ms state
timeout, which always fires first since `pulseStartTime = lastEdgeTime`
— and publishes nothing: `newCommandAvailable` is unchanged. -/
theorem nec_repeat_gap_timeout (s : IRManagerState) (t_us t_ms : Nat)
    (hm : s.currentReceiveMode = IRReceiveMode.NEC_NON_BLOCKING)
    (hs : s.currentState = IRState.REPEAT_GAP)
    (heq : s.pulseStartTime_us = s.lastEdgeTime_us)
    (ht : usub32 t_us s.pulseStartTime_us > NEC_REPEAT_GAP_MIN) :
    (updateReadNonBlocking s t_us t_ms true).currentState = IRState.IDLE ∧
    (updateReadNonBlocking s t_us t_ms true).rawData = 0 ∧
    (updateReadNonBlocking s t_us t_ms true).bitCount = 0 ∧
    (updateReadNonBlocking s t_us t_ms true).isRepeat = false ∧
    (updateReadNonBlocking s t_us t_ms true).newCommandAvailable
      = s.newCommandAvailable := by
  have ht' : usub32 t_us s.lastEdgeTime_us > STATE_TIMEOUT_US := by
    rw [← heq]
    unfold STATE_TIMEOUT_US
    unfold NEC_REPEAT_GAP_MIN at ht
    omega
  simp [updateReadNonBlocking, hm, hs, ht']

/-- C4 witness: the repeat-gap theorem applied to a concrete REPEAT_GAP
state polled 150000 µs after its last edge. -/
theorem nec_repeat_gap_timeout_witness :
    (updateReadNonBlocking repeatGapState 150000 150 true).currentState
      = IRState.IDLE ∧
    (updateReadNonBlocking repeatGapState 150000 150 true).rawData = 0 ∧
    (updateReadNonBlocking repeatGapState 150000 150 true).bitCount = 0 ∧
    (updateReadNonBlocking repeatGapState 150000 150 true).isRepeat = false ∧
    (updateReadNonBlocking repeatGapState 150000 150 true).newCommandAvailable
      = repeatGapState.newCommandAvailable :=
  nec_repeat_gap_timeout repeatGapState 150000 150 rfl rfl rfl (by decide)

/-- Concrete decoder state left in `ERROR` by malformed pulse timing,
with the line (and last sampled level) HIGH. -/
def errorState : IRManagerState :=
  { freshState with currentState := IRState.ERROR, lastPinState := true }

/-- C5 counterexample: in ERROR with no pin-level change and the stall
window not yet elapsed, the very next poll leaves the machine in ERROR —
the reset only runs inside the edge guard, refuting "unconditionally
resets ... regardless of whether the pin level changed". -/
theorem nec_error_counterexample :
    errorState.currentState = IRState.ERROR ∧
    true = errorState.lastPinState ∧
    usub32 10000 errorState.lastEdgeTime_us ≤ STATE_TIMEOUT_US ∧
    (updateReadNonBlocking errorState 10000 10 true).currentState
      = IRState.ERROR := by
  refine ⟨rfl, rfl, by decide, by decide⟩

/-- C5 (amended): after malformed timing moves the machine to ERROR, the
next poll that observes a pin-level change (within the stall window)
resets it to IDLE, clearing `rawData`, `bitCount` and `isRepeat`, and no
command is produced (`newCommandAvailable` unchanged). -/
theorem nec_error_reset (s : IRManagerState) (t_us t_ms : Nat) (pin : Bool)
    (hm : s.currentReceiveMode = IRReceiveMode.NEC_NON_BLOCKING)
    (hs : s.currentState = IRState.ERROR)
    (hedge : pin ≠ s.lastPinState)
    (htime : usub32 t_us s.lastEdgeTime_us ≤ STATE_TIMEOUT_US) :
    (updateReadNonBlocking s t_us t_ms pin).currentState = IRState.IDLE ∧
    (updateReadNonBlocking s t_us t_ms pin).rawData = 0 ∧
    (updateReadNonBlocking s t_us t_ms pin).bitCount = 0 ∧
    (updateReadNonBlocking s t_us t_ms pin).isRepeat = false ∧
    (updateReadNonBlocking s t_us t_ms pin).newCommandAvailable
      = s.newCommandAvailable := by
  have h50 : ¬ (STATE_TIMEOUT_US < usub32 t_us s.lastEdgeTime_us) := Nat.not_lt.mpr htime
  simp [updateReadNonBlocking, hm, hs, hedge, h50]

/-- C5 witness: the error-reset theorem applied to a concrete ERROR
state polled with a falling edge at 10000 µs. -/
theorem nec_error_reset_witness :
    (updateReadNonBlocking errorState 10000 10 false).currentState = IRState.IDLE ∧
    (updateReadNonBlocking errorState 10000 10 false).rawData = 0 ∧
    (updateReadNonBlocking errorState 10000 10 false).bitCount = 0 ∧
    (updateReadNonBlocking errorState 10000 10 false).isRepeat = false ∧
    (updateReadNonBlocking errorState 10000 10 false).newCommandAvailable
      = errorState.newCommandAvailable :=
  nec_error_reset errorState 10000 10 false rfl rfl (by decide) (by decide)

/-- C6: on a checksum-valid decode, a command equal to the immediately
prior accepted one arriving within 200 ms (`COMMAND_TIMEOUT`) of its
timestamp leaves the new-command flag unchanged; the same value arriving
more than 200 ms later, or a different value at any time, sets it. -/
theorem nec_debounce (s : IRManagerState) (t_us t_ms : Nat) (pin : Bool)
    (hm : s.currentReceiveMode = IRReceiveMode.NEC_NON_BLOCKING)
    (hs : s.currentState = IRState.DECODING)
    (hedge : pin ≠ s.lastPinState)
    (htime : usub32 t_us s.lastEdgeTime_us ≤ STATE_TIMEOUT_US)
    (hck1 : s.rawData % 256 + s.rawData / 256 % 256 = 255)
    (hck2 : s.rawData / 65536 % 256 + s.rawData / 16777216 % 256 = 255) :
    ((s.rawData / 65536 % 256 = s.lastCommand ∧
        usub32 t_ms s.lastReceiveTime ≤ COMMAND_TIMEOUT) →
      (updateReadNonBlocking s t_us t_ms pin).newCommandAvailable
        = s.newCommandAvailable) ∧
    ((s.rawData / 65536 % 256 = s.lastCommand ∧
        usub32 t_ms s.lastReceiveTime > COMMAND_TIMEOUT) →
      (updateReadNonBlocking s t_us t_ms pin).newCommandAvailable = true) ∧
    (s.rawData / 65536 % 256 ≠ s.lastCommand →
      (updateReadNonBlocking s t_us t_ms pin).newCommandAvailable = true) := by
  have h50 : ¬ (STATE_TIMEOUT_US < usub32 t_us s.lastEdgeTime_us) := Nat.not_lt.mpr htime
  refine ⟨fun ⟨hsame, hle⟩ => ?_, fun ⟨hsame, hgt⟩ => ?_, fun hdiff => ?_⟩
  · simp [updateReadNonBlocking, hm, hs, hedge, h50, hck1, hck2, hsame,
          Nat.not_lt.mpr hle]
  · simp [updateReadNonBlocking, hm, hs, hedge, h50, hck1, hck2, hgt]
  · simp [updateReadNonBlocking, hm, hs, hedge, h50, hck1, hck2, hdiff]

/-- Concrete decoder state in `DECODING` holding the checksum-valid frame
for address 0x00, command 0x05, when command 5 was accepted 100 ms ago. -/
def dupFrameState : IRManagerState :=
  { freshState with currentState := IRState.DECODING, rawData := necWord 0 5,
                    lastCommand := 5, lastReceiveTime := 1000,
                    lastPinState := false }

/-- C6 witness: the debounce theorem applied to the duplicate frame for
command 0x05 at 100 ms (suppressed) and at 300 ms (accepted) after the
prior acceptance. -/
theorem nec_debounce_witness :
    ((updateReadNonBlocking dupFrameState 100 1100 true).newCommandAvailable
      = dupFrameState.newCommandAvailable) ∧
    ((updateReadNonBlocking dupFrameState 100 1300 true).newCommandAvailable = true) := by
  have h1 := nec_debounce dupFrameState 100 1100 true rfl rfl (by decide) (by decide)
    (by decide) (by decide)
  have h2 := nec_debounce dupFrameState 100 1300 true rfl rfl (by decide) (by decide)
    (by decide) (by decide)
  exact ⟨h1.1 (by decide), h2.2.1 (by decide)⟩

/-! ## Mode controller (`src/main.cpp`) -/

/-- `DisplayMode` values from `include/config.h` are the integers 1..9
(`MODE_CLOCK = 1` .. `MODE_IR_SCAN = 9`); `MODE_MAX = 9`. -/
def MODE_MAX : Nat := 9

/-- `SHOW_MODE_PREVIEW` from `include/config.h`. -/
def SHOW_MODE_PREVIEW : Bool := true

/-- Observable calls made by the mode controller: per-mode lifecycle
hooks, the per-tick `run()` dispatch, and the preview overlay. -/
inductive HookCall where
  | cleanup (m : Nat)
  | setup (m : Nat)
  | activate (m : Nat)
  | modeRun (m : Nat)
  | preview (m : Nat)
  deriving DecidableEq, Repr

/-- The global mode-controller state of `main.cpp`: `currentMode` and the
`modeChangeByIR` flag. -/
structure MainState where
  currentMode : Nat
  modeChangeByIR : Bool
  deriving DecidableEq, Repr

/-- The cleanup dispatch switch at the top of `switchMode`: each of the
nine modes (`MODE_CLOCK = 1` .. `MODE_IR_SCAN = 9`) calls its `cleanup()`;
the `default` case does nothing. -/
def cleanupCalls (m : Nat) : List HookCall :=
  if 1 ≤ m ∧ m ≤ 9 then [HookCall.cleanup m] else []

/-- The setup dispatch switch at the bottom of `switchMode`: each of the
nine modes calls its `setup()`; `MODE_IMAGE = 5`, `MODE_GIF = 6` and
`MODE_FONT = 7` additionally call `activate()` when `activateMode` is
set; the `default` case does nothing. -/
def setupCalls (m : Nat) (activateMode : Bool) : List HookCall :=
  if 1 ≤ m ∧ m ≤ 9 then
    HookCall.setup m ::
      (if (m = 5 ∨ m = 6 ∨ m = 7) ∧ activateMode = true then [HookCall.activate m] else [])
  else []

/-- `switchMode(newMode, activateMode)` from `src/main.cpp` (lines
735-808), returning the new controller state together with the list of
lifecycle hooks invoked, in order.  The early-return guard is
`currentMode == newMode && !modeChangeByIR && activateMode`. -/
def switchMode (st : MainState) (newMode : Nat) (activateMode : Bool) :
    MainState × List HookCall :=
  if st.currentMode = newMode ∧ st.modeChangeByIR = false ∧ activateMode = true then
    (st, [])
  else
    ({ currentMode := newMode, modeChangeByIR := false },
     cleanupCalls st.currentMode ++ setupCalls newMode activateMode)

/-- `handleIRCommand(command)` from `src/main.cpp`: maps the IR command
byte to a target mode (`IR_1 = 0x10` .. `IR_9 = 0x1a` select modes 1..9
directly, `IR_UP = 0x01` and `IR_DOWN = 0x09` cycle adjacently); all
other commands (sub-mode navigation, power, sound, unknown) leave the
mode unchanged with `modeChangeByIR` false.  When a switch is requested
the preview overlay is shown for an actual mode change and
`switchMode(targetMode, true)` runs with `modeChangeByIR` set.
`IR_DOWN`'s C expression `(m - 1 - 1 + MODE_MAX) % MODE_MAX + 1` is
written `(m + MODE_MAX - 2) % MODE_MAX + 1`, identical on `int` values
`m ≥ 0`. -/
def handleIRCommand (st : MainState) (command : Nat) : MainState × List HookCall :=
  let modeBeforeIRHandling := st.currentMode
  let tm :=
    if command = 0x10 then (1, true)
    else if command = 0x11 then (2, true)
    else if command = 0x12 then (3, true)
    else if command = 0x14 then (4, true)
    else if command = 0x15 then (5, true)
    else if command = 0x16 then (6, true)
    else if command = 0x18 then (7, true)
    else if command = 0x19 then (8, true)
    else if command = 0x1a then (9, true)
    else if command = 0x01 then ((st.currentMode - 1 + 1) % MODE_MAX + 1, true)
    else if command = 0x09 then ((st.currentMode + MODE_MAX - 2) % MODE_MAX + 1, true)
    else (st.currentMode, false)
  if tm.2 = true then
    let pre :=
      if SHOW_MODE_PREVIEW = true ∧ tm.1 ≠ modeBeforeIRHandling then
        [HookCall.preview tm.1]
      else []
    let sw := switchMode { st with modeChangeByIR := true } tm.1 true
    (sw.1, pre ++ sw.2)
  else
    ({ st with modeChangeByIR := false }, [])

/-- `IRManager::clearCommand`. -/
def clearCommand (s : IRManagerState) : IRManagerState :=
  { s with newCommandAvailable := false }

/-- `updateCurrentMode()` from `src/main.cpp` (lines 1293-1316): first
the dispatch switch calls the current mode's `run()` (the `default` case
falls back to `switchMode(MODE_CLOCK, true)`), and only then is a
pending IR command consumed and handled. -/
def updateCurrentMode (st : MainState) (ir : IRManagerState) :
    MainState × IRManagerState × List HookCall :=
  let run :=
    if 1 ≤ st.currentMode ∧ st.currentMode ≤ 9 then
      (st, [HookCall.modeRun st.currentMode])
    else
      switchMode st 1 true
  if hasNewCommand ir = true then
    let h := handleIRCommand run.1 (getLastCommand ir)
    (h.1, clearCommand ir, run.2 ++ h.2)
  else
    (run.1, ir, run.2)

/-! ## Blocking raw decoder (`IRManager::readRawCodeYahboom`) -/

def RAW_MAX_COUNT_SHORT_PULSE : Nat := 30
def RAW_MAX_COUNT_LONG_PULSE : Nat := 80
def RAW_BIT_THRESHOLD_COUNT : Nat := 35

/-- What the bounded busy-wait sampling of `readRawCodeYahboom` observed
on the pin: one of the early-return timeouts, or a full 32-bit capture.
For `frame`, `counts i` is the iteration count of the HIGH phase of bit
window `i` (a completed capture has `counts i < RAW_MAX_COUNT_LONG_PULSE`
for every bit). -/
inductive RawSignal where
  | noStart
  | headerLowTimeout
  | headerHighTimeout
  | bitLowTimeout
  | bitHighTimeout
  | frame (counts : Nat → Nat)

/-- The `data[4]` bytes assembled by the bit-capture loop: bit `i` of the
stream lands in byte `i / 8` at position `i % 8`, and reads 1 exactly
when its HIGH-phase count exceeds `RAW_BIT_THRESHOLD_COUNT`
(`data[idx] |= 1 << bit_idx_in_byte`). -/
def rawByte (counts : Nat → Nat) (idx : Nat) : Nat :=
  ((List.range 8).map (fun j =>
    if counts (8 * idx + j) > RAW_BIT_THRESHOLD_COUNT then 2 ^ j else 0)).sum

/-- `IRManager::readRawCodeYahboom` (`src/ir_manager.cpp`): returns
immediately when not in `YAHBOOM_BLOCKING` mode; otherwise clears
`newCommandAvailable` before reading, returns on any phase timeout, and
on a full capture takes `data[2]` as the command, accepting it (setting
`lastCommand`, `newCommandAvailable`, `lastReceiveTime := millis()`) iff
it is neither `0x00` nor `0xFF` — with no checksum validation. -/
def readRawCodeYahboom (s : IRManagerState) (r : RawSignal) (t_ms : Nat) :
    IRManagerState :=
  if s.currentReceiveMode ≠ IRReceiveMode.YAHBOOM_BLOCKING then s
  else
    let s := { s with newCommandAvailable := false }
    match r with
    | RawSignal.frame counts =>
        let rawCommand := rawByte counts 2
        if rawCommand ≠ 0x00 ∧ rawCommand ≠ 0xFF then
          { s with lastCommand := rawCommand, newCommandAvailable := true,
                   lastReceiveTime := t_ms }
        else s
    | _ => s

/-- The call observed a timeout at some phase, or captured a frame whose
command byte is rejected as likely noise. -/
def rawReadFails (r : RawSignal) : Prop :=
  match r with
  | RawSignal.frame counts => rawByte counts 2 = 0x00 ∨ rawByte counts 2 = 0xFF
  | _ => True

/-- C7 counterexample: `switchMode(newMode = currentMode,
activateMode = false)` with `modeChangeByIR` false is NOT a no-op: the
guard `currentMode == newMode && !modeChangeByIR && activateMode`
requires `activateMode` to be true, so cleanup and setup hooks run. -/
theorem switch_mode_counterexample :
    (switchMode ⟨1, false⟩ 1 false).2 ≠ [] ∧
    (switchMode ⟨1, false⟩ 1 false).2 = [HookCall.cleanup 1, HookCall.setup 1] ∧
    (switchMode ⟨1, false⟩ 1 false).1.currentMode = 1 := by
  refine ⟨by decide, by decide, by decide⟩

/-- C7 (amended): `switchMode(newMode, activateMode = true)` with
`newMode` equal to the current mode and `modeChangeByIR` false is a
no-op: no cleanup or setup hook is invoked and the controller state is
unchanged. -/
theorem switch_mode_idempotence_guard (st : MainState) (newMode : Nat)
    (hsame : st.currentMode = newMode) (hir : st.modeChangeByIR = false) :
    switchMode st newMode true = (st, []) := by
  simp [switchMode, hsame, hir]

/-- C7 witness: the idempotence guard applied concretely to a request
for the already-current mode 3, not IR-forced, with activation. -/
theorem switch_mode_idempotence_guard_witness :
    switchMode ⟨3, false⟩ 3 true = (⟨3, false⟩, []) :=
  switch_mode_idempotence_guard ⟨3, false⟩ 3 rfl rfl

/-- `IRManager` decoder state with the decoded command `IR_2 = 0x11`
pending and unconsumed. -/
def pendingIR2 : IRManagerState :=
  { freshState with newCommandAvailable := true, lastCommand := 0x11 }

/-- C8 counterexample: a tick of `updateCurrentMode` in mode 1 with
command `IR_2` pending renders mode 1 first (`modeRun 1` precedes the
preview/cleanup/setup hooks) and only then switches to mode 2, so the
switch is NOT reflected in the same tick's rendering pass. -/
theorem tick_order_counterexample :
    hasNewCommand pendingIR2 = true ∧
    (updateCurrentMode ⟨1, false⟩ pendingIR2).1.currentMode = 2 ∧
    (updateCurrentMode ⟨1, false⟩ pendingIR2).2.2 =
      [HookCall.modeRun 1, HookCall.preview 2, HookCall.cleanup 1,
       HookCall.setup 2] := by
  refine ⟨by decide, by decide, by decide⟩

/-- C8 (amended): within one `updateCurrentMode` tick with a pending IR
command, the active mode's `run()` event comes first, followed by the
hooks of `handleIRCommand` on that command; the resulting controller
state is exactly `handleIRCommand`'s and the pending command is cleared.
A mode switch is therefore rendered only from the next tick on. -/
theorem tick_order (st : MainState) (ir : IRManagerState)
    (hrange : 1 ≤ st.currentMode ∧ st.currentMode ≤ 9)
    (hpending : hasNewCommand ir = true) :
    (updateCurrentMode st ir).2.2
      = HookCall.modeRun st.currentMode :: (handleIRCommand st (getLastCommand ir)).2 ∧
    (updateCurrentMode st ir).1 = (handleIRCommand st (getLastCommand ir)).1 ∧
    (updateCurrentMode st ir).2.1 = clearCommand ir := by
  simp [updateCurrentMode, hrange.1, hrange.2, hpending]

/-- C8 witness: the tick-order theorem applied to mode 1 with command
`IR_2 = 0x11` pending. -/
theorem tick_order_witness :
    (updateCurrentMode ⟨1, false⟩ pendingIR2).2.2
      = HookCall.modeRun 1 :: (handleIRCommand ⟨1, false⟩ (getLastCommand pendingIR2)).2 ∧
    (updateCurrentMode ⟨1, false⟩ pendingIR2).1
      = (handleIRCommand ⟨1, false⟩ (getLastCommand pendingIR2)).1 ∧
    (updateCurrentMode ⟨1, false⟩ pendingIR2).2.1 = clearCommand pendingIR2 :=
  tick_order ⟨1, false⟩ pendingIR2 (by decide) (by decide)

/-- C9: when the blocking raw decoder captures a full 32-bit frame it
takes `data[2]` as the command with no checksum validation; a command
becomes pending, with `lastCommand` equal to that byte, iff the byte is
neither 0x00 nor 0xFF, and otherwise no command is pending. -/
theorem yahboom_third_byte_acceptance (s : IRManagerState) (counts : Nat → Nat)
    (t_ms : Nat)
    (hm : s.currentReceiveMode = IRReceiveMode.YAHBOOM_BLOCKING)
    (_hcap : ∀ i, i < 32 → counts i < RAW_MAX_COUNT_LONG_PULSE) :
    ((rawByte counts 2 ≠ 0x00 ∧ rawByte counts 2 ≠ 0xFF) →
      (readRawCodeYahboom s (RawSignal.frame counts) t_ms).newCommandAvailable = true ∧
      (readRawCodeYahboom s (RawSignal.frame counts) t_ms).lastCommand
        = rawByte counts 2) ∧
    ((rawByte counts 2 = 0x00 ∨ rawByte counts 2 = 0xFF) →
      (readRawCodeYahboom s (RawSignal.frame counts) t_ms).newCommandAvailable
        = false) := by
  constructor
  · intro h
    simp [readRawCodeYahboom, hm, h.1, h.2]
  · intro h
    rcases h with h | h <;> simp [readRawCodeYahboom, hm, h]

/-- C9 witness: the acceptance theorem applied to a concrete capture
whose third byte is 0x01: the command is accepted and `lastCommand`
equals `data[2]`. -/
theorem yahboom_third_byte_acceptance_witness :
    (readRawCodeYahboom
      { freshState with currentReceiveMode := IRReceiveMode.YAHBOOM_BLOCKING }
      (RawSignal.frame (fun i => if i = 16 then 40 else 0)) 500).newCommandAvailable
        = true ∧
    (readRawCodeYahboom
      { freshState with currentReceiveMode := IRReceiveMode.YAHBOOM_BLOCKING }
      (RawSignal.frame (fun i => if i = 16 then 40 else 0)) 500).lastCommand
        = rawByte (fun i => if i = 16 then 40 else 0) 2 :=
  (yahboom_third_byte_acceptance
    { freshState with currentReceiveMode := IRReceiveMode.YAHBOOM_BLOCKING }
    (fun i => if i = 16 then 40 else 0) 500 rfl
    (by intro i _; dsimp only; split <;> decide)).1 (by decide)

/-- C10: a call of `readRawCodeYahboom` outside `YAHBOOM_BLOCKING` mode
returns the state unchanged; in `YAHBOOM_BLOCKING` mode the pending-flag
is cleared at entry, so any phase timeout or a rejected (0x00/0xFF)
captured byte leaves `hasNewCommand()` false even if a command was
pending before the call. -/
theorem yahboom_entry_clear (s : IRManagerState) (r : RawSignal) (t_ms : Nat) :
    (s.currentReceiveMode ≠ IRReceiveMode.YAHBOOM_BLOCKING →
      readRawCodeYahboom s r t_ms = s) ∧
    (s.currentReceiveMode = IRReceiveMode.YAHBOOM_BLOCKING → rawReadFails r →
      (readRawCodeYahboom s r t_ms).newCommandAvailable = false) := by
  constructor
  · intro h
    simp [readRawCodeYahboom, h]
  · intro hm hf
    cases r with
    | frame counts =>
        unfold rawReadFails at hf
        rcases hf with h | h <;> simp [readRawCodeYahboom, hm, h]
    | noStart => simp [readRawCodeYahboom, hm]
    | headerLowTimeout => simp [readRawCodeYahboom, hm]
    | headerHighTimeout => simp [readRawCodeYahboom, hm]
    | bitLowTimeout => simp [readRawCodeYahboom, hm]
    | bitHighTimeout => simp [readRawCodeYahboom, hm]

/-- Decoder state in `YAHBOOM_BLOCKING` mode with an unconsumed command
pending. -/
def yahboomPendingState : IRManagerState :=
  { freshState with currentReceiveMode := IRReceiveMode.YAHBOOM_BLOCKING,
                    newCommandAvailable := true, lastCommand := 7 }

/-- C10 witness: the entry-clear theorem applied to a YAHBOOM_BLOCKING
state with an unconsumed command pending and a start-timeout signal, and
to the fresh (NEC-mode) state. -/
theorem yahboom_entry_clear_witness :
    (yahboomPendingState.newCommandAvailable = true) ∧
    ((readRawCodeYahboom yahboomPendingState RawSignal.noStart 500).newCommandAvailable
      = false) ∧
    (readRawCodeYahboom freshState RawSignal.noStart 500 = freshState) := by
  refine ⟨rfl, ?_, ?_⟩
  · exact (yahboom_entry_clear yahboomPendingState RawSignal.noStart 500).2 rfl trivial
  · exact (yahboom_entry_clear freshState RawSignal.noStart 500).1 (by decide)

end MatrixPortal
